import Mathlib

/-!
# Shallow embedding of `src/pipeline/pipeline_btc.py`

A sequential transaction-processing pipeline (pipe-and-filter): Validation,
Authentication, Currency Conversion (TransformFilter), Fee Computation
(FeeFilter) and Persistence (StorageFilter) run in order over a mutable
context dictionary holding the transaction.

Modelling decisions:
* Python `float` values are modelled as `ℚ`; `round(x, 2)` is modelled as
  round-half-to-even to two decimals (`round2`), matching the Python builtin `round`.
* Python exceptions are modelled with `Except`: the `process` of each filter
  returns `Except Failure Ctx`.  `Failure` distinguishes the
  `PipelineError` hierarchy from non-pipeline runtime errors (e.g. the
  `KeyError` a missing `"transaction"` key would raise).
* The context dict is an association list `Ctx` of string keys to a sum of
  the value types actually stored (`Transaction`, `User`, strings); dict
  assignment is `ctxInsert` (replace in place or append).
* Mutation-in-place of the `Transaction` object is modelled by replacing the
  value at the `"transaction"` key with the updated record.
* The SQLite table is modelled as the list `store` of inserted rows inside
  `PState`; `Pipeline.run` threads a `PState` (context + store).
* The runner `runAux` additionally returns the list of stage tags that were
  entered, so that "stage never executes" is observable, and the state as of
  the failure, since in-place mutations in Python are not rolled back.
-/

/-- The `PipelineError` hierarchy of the source: `ValidationError`,
`AuthError`, `TransformError`, `StorageError`, each carrying its message. -/
inductive PipelineError where
  | validationError (msg : String)
  | authError (msg : String)
  | transformError (msg : String)
  | storageError (msg : String)
deriving DecidableEq, Repr

/-- A raised Python exception: either one of the
`PipelineError` kinds, or a non-pipeline runtime error such as the
`KeyError`/`AttributeError` raised when the context lacks a proper
`"transaction"` entry. -/
inductive Failure where
  | perr (e : PipelineError)
  | pyError (what : String)
deriving DecidableEq, Repr

/-- Decidable equality of `Except` results, so that concrete stage
outcomes can be checked by `decide`. -/
instance {ε α : Type} [DecidableEq ε] [DecidableEq α] :
    DecidableEq (Except ε α)
  | .error a, .error b =>
    if h : a = b then .isTrue (by rw [h]) else .isFalse (by simp [h])
  | .error _, .ok _ => .isFalse (by simp)
  | .ok _, .error _ => .isFalse (by simp)
  | .ok a, .ok b =>
    if h : a = b then .isTrue (by rw [h]) else .isFalse (by simp [h])

/-- The `Transaction` dataclass: a purchase request progressively enriched
by the pipeline stages.  `Optional[float]` fields are `Option ℚ`. -/
structure Transaction where
  user_id : String
  btc_amount : ℚ
  base_currency : String
  btc_price_in_base : Option ℚ := none
  subtotal_base : Option ℚ := none
  commission_usd : ℚ := 5
  commission_base : Option ℚ := none
  total_base : Option ℚ := none
  ts_epoch : Int := 0
deriving DecidableEq, Repr

/-- The `User` dataclass: identifier, display name, active flag. -/
structure User where
  user_id : String
  name : String
  active : Bool := true
deriving DecidableEq, Repr

/-- A value stored in the context dictionary: the stages store the
transaction, the resolved user, and the `"ok"` storage-result string. -/
inductive Value where
  | tx (t : Transaction)
  | user (u : User)
  | str (s : String)
deriving DecidableEq, Repr

/-- The processing context: the Python `Dict[str, Any]`, as an association
list in insertion order. -/
abbrev Ctx := List (String × Value)

/-- Dictionary lookup (`context[k]` / `.get(k)`). -/
def ctxLookup (c : Ctx) (k : String) : Option Value :=
  match c with
  | [] => none
  | (k', v) :: rest => if k' = k then some v else ctxLookup rest k

/-- Dictionary assignment `context[k] = v`: replaces the value at an
existing key in place, otherwise appends the new key (insertion order). -/
def ctxInsert (c : Ctx) (k : String) (v : Value) : Ctx :=
  match c with
  | [] => [(k, v)]
  | (k', v') :: rest =>
      if k' = k then (k, v) :: rest else (k', v') :: ctxInsert rest k v

/-- `context["transaction"]`, typed: `some tx` when the key holds a
`Transaction`, `none` otherwise (Python would raise on the latter). -/
def getTx (c : Ctx) : Option Transaction :=
  match ctxLookup c "transaction" with
  | some (Value.tx t) => some t
  | _ => none

/-- Round a rational to the nearest integer, ties to even — the semantics
of the Python 3 builtin `round`. -/
def roundHalfEven (q : ℚ) : ℤ :=
  let n := q.floor
  let f := q - n
  if f < 1 / 2 then n
  else if 1 / 2 < f then n + 1
  else if n % 2 = 0 then n else n + 1

/-- `round(x, 2)` of the source: round to two decimal places. -/
def round2 (q : ℚ) : ℚ :=
  (roundHalfEven (q * 100) : ℚ) / 100

/-- The currencies accepted by `ValidationFilter` (`("USD","EUR","GBP")`),
which are also exactly the keys of the `FixedRateProvider` tables. -/
def supportedCurrencies : List String := ["USD", "EUR", "GBP"]

/-- `FixedRateProvider.get_btc_price`: BTC unit price table
`{USD: 65000.0, EUR: 61000.0, GBP: 53000.0}`; raises `TransformError`
for a currency outside the table. -/
def get_btc_price (currency : String) : Except Failure ℚ :=
  if currency = "USD" then .ok 65000
  else if currency = "EUR" then .ok 61000
  else if currency = "GBP" then .ok 53000
  else .error (.perr (.transformError
    ("Moneda no soportada para precio BTC: " ++ currency)))

/-- `FixedRateProvider.usd_to`: FX table
`{USD: 1.0, EUR: 0.93, GBP: 0.80}`; raises `TransformError` for a
currency outside the table. -/
def usd_to (currency : String) : Except Failure ℚ :=
  if currency = "USD" then .ok 1
  else if currency = "EUR" then .ok (93 / 100)
  else if currency = "GBP" then .ok (80 / 100)
  else .error (.perr (.transformError
    ("Moneda no soportada para FX: " ++ currency)))

/-- `ValidationFilter.process`: checks, in order, that `user_id` is a
non-empty string, that `btc_amount` is numeric and strictly positive, and
that `base_currency` is one of USD/EUR/GBP; raises `ValidationError` with
the corresponding message on the first violation, otherwise returns the
context unchanged. -/
def validationProcess (context : Ctx) : Except Failure Ctx :=
  match getTx context with
  | none => .error (.pyError "transaction")
  | some tx =>
    if tx.user_id = "" then
      .error (.perr (.validationError "Falta user_id válido."))
    else if tx.btc_amount ≤ 0 then
      .error (.perr (.validationError "btc_amount debe ser numérico y > 0."))
    else if tx.base_currency ∈ supportedCurrencies then
      .ok context
    else
      .error (.perr (.validationError "base_currency debe ser USD, EUR o GBP."))

/-- The `AuthError` message `f"Usuario {tx.user_id} no existe."`. -/
def msgNoExiste (uid : String) : String :=
  "Usuario " ++ uid ++ " no existe."

/-- The `AuthError` message `f"Usuario {tx.user_id} está inactivo."`. -/
def msgInactivo (uid : String) : String :=
  "Usuario " ++ uid ++ " está inactivo."

/-- The users index of `AuthFilter` (`Dict[str, User]`), as an association
list; `usersLookup` is `self.users.get(user_id)`. -/
abbrev UsersIndex := List (String × User)

/-- `dict.get` on the users index. -/
def usersLookup (users : UsersIndex) (uid : String) : Option User :=
  match users with
  | [] => none
  | (k, u) :: rest => if k = uid then some u else usersLookup rest uid

/-- `AuthFilter.process`: resolves the transaction field `user_id` in the users
index; raises `AuthError` if absent or inactive; on success attaches the
resolved user under the `"user"` key. -/
def authProcess (users : UsersIndex) (context : Ctx) : Except Failure Ctx :=
  match getTx context with
  | none => .error (.pyError "transaction")
  | some tx =>
    match usersLookup users tx.user_id with
    | none => .error (.perr (.authError (msgNoExiste tx.user_id)))
    | some u =>
      if u.active then .ok (ctxInsert context "user" (Value.user u))
      else .error (.perr (.authError (msgInactivo tx.user_id)))

/-- `TransformFilter.process`: fetches the BTC unit price for the base
currency, sets `btc_price_in_base`, and sets
`subtotal_base = round(price * btc_amount, 2)`. -/
def transformProcess (context : Ctx) : Except Failure Ctx :=
  match getTx context with
  | none => .error (.pyError "transaction")
  | some tx =>
    match get_btc_price tx.base_currency with
    | .error e => .error e
    | .ok price =>
      let tx' := { tx with
        btc_price_in_base := some price,
        subtotal_base := some (round2 (price * tx.btc_amount)) }
      .ok (ctxInsert context "transaction" (Value.tx tx'))

/-- The `TransformError` message of `FeeFilter` when `subtotal_base` is
still unset. -/
def msgFaltaSubtotal : String :=
  "Falta subtotal_base; ejecute TransformFilter antes."

/-- `FeeFilter.process`: requires `subtotal_base` to be set (else raises
`TransformError`), fetches the USD→base FX factor, sets
`commission_base = round(commission_usd * fx, 2)` and
`total_base = round(subtotal_base + commission_base, 2)`. -/
def feeProcess (context : Ctx) : Except Failure Ctx :=
  match getTx context with
  | none => .error (.pyError "transaction")
  | some tx =>
    match tx.subtotal_base with
    | none => .error (.perr (.transformError msgFaltaSubtotal))
    | some st =>
      match usd_to tx.base_currency with
      | .error e => .error e
      | .ok fx =>
        let cb := round2 (tx.commission_usd * fx)
        let tx' := { tx with
          commission_base := some cb,
          total_base := some (round2 (st + cb)) }
        .ok (ctxInsert context "transaction" (Value.tx tx'))

/-- The `StorageError` message when a required computed field is unset. -/
def msgIncompleta : String :=
  "Transacción incompleta; verifique filtros previos."

/-- Pipeline state threaded through a run: the context dictionary plus the
SQLite `transactions` table, modelled as the list of inserted rows (the
auto-increment id is the position of the row). -/
structure PState where
  ctx : Ctx
  store : List Transaction
deriving DecidableEq, Repr

/-- `StorageFilter.process`: raises `StorageError` if any of
`subtotal_base`, `total_base`, `commission_base`, `btc_price_in_base` is
unset; otherwise appends the row to the table and marks the context with
`context["storage_result"] = "ok"`. -/
def storageProcess (s : PState) : Except Failure PState :=
  match getTx s.ctx with
  | none => .error (.pyError "transaction")
  | some tx =>
    if tx.subtotal_base = none ∨ tx.total_base = none ∨
        tx.commission_base = none ∨ tx.btc_price_in_base = none then
      .error (.perr (.storageError msgIncompleta))
    else
      .ok { ctx := ctxInsert s.ctx "storage_result" (Value.str "ok"),
            store := s.store ++ [tx] }

/-- Tags for the five concrete filters, in the order `main` wires them. -/
inductive StageTag where
  | validation
  | auth
  | transform
  | fee
  | storage
deriving DecidableEq, Repr

/-- Dispatch the `process` of one filter on the pipeline state.  Only the
storage filter touches the store. -/
def runStage (users : UsersIndex) (t : StageTag) (s : PState) :
    Except Failure PState :=
  match t with
  | .validation => (validationProcess s.ctx).map (fun c => { s with ctx := c })
  | .auth => (authProcess users s.ctx).map (fun c => { s with ctx := c })
  | .transform => (transformProcess s.ctx).map (fun c => { s with ctx := c })
  | .fee => (feeProcess s.ctx).map (fun c => { s with ctx := c })
  | .storage => storageProcess s

/-- The filter list of `main`: Validation, Auth, Transform, Fee, Storage. -/
def pipelineFilters : List StageTag :=
  [.validation, .auth, .transform, .fee, .storage]

/-- The loop body of `Pipeline.run`, instrumented: besides the final
state it returns the list of stages that were entered and the failure, if
any.  On a failure the state reached so far is returned unchanged — in the
source the caller still holds the in-place-mutated transaction, and no
stage of this repository mutates anything before its raise point. -/
def runAux (users : UsersIndex) :
    List StageTag → PState → PState × List StageTag × Option Failure
  | [], s => (s, [], none)
  | t :: rest, s =>
    match runStage users t s with
    | .error e => (s, [t], some e)
    | .ok s' =>
      match runAux users rest s' with
      | (s'', tr, r) => (s'', t :: tr, r)

/-- The uninstrumented sequential composition of stages (the plain
semantics of the `for f in self.filters` loop under `Except`). -/
def runAll (users : UsersIndex) :
    List StageTag → PState → Except Failure PState
  | [], s => .ok s
  | t :: rest, s =>
    match runStage users t s with
    | .error e => .error e
    | .ok s' => runAll users rest s'

/-- The fresh state `Pipeline.run` builds:
`context = {"transaction": transaction}` plus the current table. -/
def initState (tx : Transaction) (store : List Transaction) : PState :=
  { ctx := [("transaction", Value.tx tx)], store := store }

/-- `Pipeline.run(transaction)` for the five-filter pipeline of `main`,
instrumented with the executed-stage trace. -/
def pipelineRun (users : UsersIndex) (tx : Transaction)
    (store : List Transaction) : PState × List StageTag × Option Failure :=
  runAux users pipelineFilters (initState tx store)

/-- `load_mock_users()`: u001 Alice active, u002 Bob active,
u003 Carol inactive. -/
def mockUsers : UsersIndex :=
  [("u001", { user_id := "u001", name := "Alice", active := true }),
   ("u002", { user_id := "u002", name := "Bob", active := true }),
   ("u003", { user_id := "u003", name := "Carol", active := false })]

/-- A `Transaction` as `main` constructs them: only `user_id`,
`btc_amount` and `base_currency` passed, every computed field left at its
default `None`, the commission at its default `5.0`, and the timestamp as
stored by the dataclass default (see `constructTransaction`). -/
def freshTx (uid : String) (amount : ℚ) (cur : String) (ts : Int) :
    Transaction :=
  { user_id := uid, btc_amount := amount, base_currency := cur,
    ts_epoch := ts }

/-- Python dataclass semantics of
`ts_epoch: int = int(time.time())`: the default expression is evaluated
ONCE, when the class statement executes at module load time
`classLoadTs`; a construction at wall-clock time `constructionTs` that
does not pass `ts_epoch` receives the stored default `classLoadTs` —
`constructionTs` never enters the record. -/
def constructTransaction (classLoadTs : Int) (constructionTs : Int)
    (uid : String) (amount : ℚ) (cur : String) : Transaction :=
  { user_id := uid, btc_amount := amount, base_currency := cur,
    btc_price_in_base := none, subtotal_base := none, commission_usd := 5,
    commission_base := none, total_base := none, ts_epoch := classLoadTs }

/-! ## Dictionary lemmas -/

theorem ctxLookup_insert_self (c : Ctx) (k : String) (v : Value) :
    ctxLookup (ctxInsert c k v) k = some v := by
  induction c with
  | nil => simp [ctxInsert, ctxLookup]
  | cons hd tl ih =>
    obtain ⟨a, b⟩ := hd
    by_cases hk : a = k
    · simp [ctxInsert, hk, ctxLookup]
    · simp [ctxInsert, hk, ctxLookup, ih]

theorem ctxLookup_insert_ne (c : Ctx) {k k' : String} (v : Value)
    (hne : k' ≠ k) : ctxLookup (ctxInsert c k v) k' = ctxLookup c k' := by
  induction c with
  | nil => simp [ctxInsert, ctxLookup, Ne.symm hne]
  | cons hd tl ih =>
    obtain ⟨a, b⟩ := hd
    by_cases hk : a = k
    · simp [ctxInsert, hk, ctxLookup, Ne.symm hne]
    · simp [ctxInsert, hk, ctxLookup, ih]

theorem getTx_insert_tx (c : Ctx) (t : Transaction) :
    getTx (ctxInsert c "transaction" (Value.tx t)) = some t := by
  simp [getTx, ctxLookup_insert_self]

theorem getTx_insert_other (c : Ctx) {k : String} (v : Value)
    (hk : k ≠ "transaction") : getTx (ctxInsert c k v) = getTx c := by
  simp [getTx, ctxLookup_insert_ne c v (Ne.symm hk)]

theorem ctxInsert_idem (c : Ctx) (k : String) (v : Value) :
    ctxInsert (ctxInsert c k v) k v = ctxInsert c k v := by
  induction c with
  | nil => simp [ctxInsert]
  | cons hd tl ih =>
    obtain ⟨a, b⟩ := hd
    by_cases hk : a = k
    · simp [ctxInsert, hk]
    · simp [ctxInsert, hk, ih]

/-! ## `Except` helper -/

theorem except_map_ok {α β : Type} {f : α → β} {e : Except Failure α}
    {b : β} (h : Except.map f e = .ok b) : ∃ a, e = .ok a ∧ b = f a := by
  cases e with
  | error err => simp [Except.map] at h
  | ok a =>
    refine ⟨a, rfl, ?_⟩
    simpa [Except.map] using h.symm

/-! ## Per-stage shape lemmas -/

theorem validation_ok_shape {c c' : Ctx}
    (h : validationProcess c = .ok c') : c' = c := by
  unfold validationProcess at h
  split at h
  · exact absurd h (by simp)
  · split at h
    · exact absurd h (by simp)
    · split at h
      · exact absurd h (by simp)
      · split at h
        · simpa using h.symm
        · exact absurd h (by simp)

theorem auth_ok_shape {users : UsersIndex} {c c' : Ctx}
    (h : authProcess users c = .ok c') :
    ∃ tx u, getTx c = some tx ∧ usersLookup users tx.user_id = some u ∧
      u.active = true ∧ c' = ctxInsert c "user" (Value.user u) := by
  unfold authProcess at h
  split at h
  · exact absurd h (by simp)
  · next tx hg =>
    split at h
    · exact absurd h (by simp)
    · next u hu =>
      split at h
      · next ha =>
        refine ⟨tx, u, hg, hu, ha, ?_⟩
        simpa using h.symm
      · exact absurd h (by simp)

theorem transform_ok_shape {c c' : Ctx}
    (h : transformProcess c = .ok c') :
    ∃ tx p, getTx c = some tx ∧ get_btc_price tx.base_currency = .ok p ∧
      c' = ctxInsert c "transaction" (Value.tx { tx with
        btc_price_in_base := some p,
        subtotal_base := some (round2 (p * tx.btc_amount)) }) := by
  unfold transformProcess at h
  split at h
  · exact absurd h (by simp)
  · next tx hg =>
    split at h
    · exact absurd h (by simp)
    · next p hp =>
      refine ⟨tx, p, hg, hp, ?_⟩
      simpa using h.symm

theorem fee_ok_shape {c c' : Ctx}
    (h : feeProcess c = .ok c') :
    ∃ tx st fx, getTx c = some tx ∧ tx.subtotal_base = some st ∧
      usd_to tx.base_currency = .ok fx ∧
      c' = ctxInsert c "transaction" (Value.tx { tx with
        commission_base := some (round2 (tx.commission_usd * fx)),
        total_base :=
          some (round2 (st + round2 (tx.commission_usd * fx))) }) := by
  unfold feeProcess at h
  split at h
  · exact absurd h (by simp)
  · next tx hg =>
    split at h
    · exact absurd h (by simp)
    · next st hst =>
      split at h
      · exact absurd h (by simp)
      · next fx hfx =>
        refine ⟨tx, st, fx, hg, hst, hfx, ?_⟩
        simpa using h.symm

theorem storage_ok_shape {s s' : PState}
    (h : storageProcess s = .ok s') :
    ∃ tx, getTx s.ctx = some tx ∧
      tx.subtotal_base ≠ none ∧ tx.total_base ≠ none ∧
      tx.commission_base ≠ none ∧ tx.btc_price_in_base ≠ none ∧
      s' = { ctx := ctxInsert s.ctx "storage_result" (Value.str "ok"),
             store := s.store ++ [tx] } := by
  unfold storageProcess at h
  split at h
  · exact absurd h (by simp)
  · next tx hg =>
    split at h
    · exact absurd h (by simp)
    · next hreq =>
      push_neg at hreq
      refine ⟨tx, hg, hreq.1, hreq.2.1, hreq.2.2.1, hreq.2.2.2, ?_⟩
      simpa using h.symm

/-! ## Runner lemmas -/

theorem runAux_none_runAll {users : UsersIndex} :
    ∀ (stages : List StageTag) (s s' : PState) (tr : List StageTag),
      runAux users stages s = (s', tr, none) → runAll users stages s = .ok s'
  | [], s, s', tr, h => by
    simp [runAux] at h
    simp [runAll, h.1]
  | t :: rest, s, s', tr, h => by
    unfold runAux at h
    split at h
    · next e hs => simp at h
    · next s₁ hs =>
      cases hr : runAux users rest s₁ with
      | mk s2 p2 =>
      obtain ⟨tr', r⟩ := p2
      rw [hr] at h
      simp at h
      obtain ⟨h1, _, h3⟩ := h
      simp [runAll, hs]
      exact runAux_none_runAll rest s₁ s' tr' (by rw [hr, h1, h3])

theorem getTx_initState (tx : Transaction) (store : List Transaction) :
    getTx (initState tx store).ctx = some tx := by
  simp [initState, getTx, ctxLookup]

theorem runAll_pipeline_decompose {users : UsersIndex} {s₀ sf : PState}
    (h : runAll users pipelineFilters s₀ = .ok sf) :
    ∃ s₁ s₂ s₃ s₄,
      runStage users StageTag.validation s₀ = .ok s₁ ∧
      runStage users StageTag.auth s₁ = .ok s₂ ∧
      runStage users StageTag.transform s₂ = .ok s₃ ∧
      runStage users StageTag.fee s₃ = .ok s₄ ∧
      runStage users StageTag.storage s₄ = .ok sf := by
  simp only [pipelineFilters, runAll] at h
  split at h
  · exact absurd h (by simp)
  · next s₁ h₁ =>
    split at h
    · exact absurd h (by simp)
    · next s₂ h₂ =>
      split at h
      · exact absurd h (by simp)
      · next s₃ h₃ =>
        split at h
        · exact absurd h (by simp)
        · next s₄ h₄ =>
          split at h
          · exact absurd h (by simp)
          · next s₅ h₅ =>
            have hs : s₅ = sf := by simpa using h
            exact ⟨s₁, s₂, s₃, s₄, h₁, h₂, h₃, h₄, hs ▸ h₅⟩

/-- C7: the claim says the `ts_epoch` of every `Transaction` is captured fresh at
construction time.  The source instead evaluates the dataclass default
`int(time.time())` once, when the class statement runs at module load; two
records constructed at different later times (here 1000 and 2000, after a
module load at 500) receive the SAME stored default, and neither receives
its own construction time.  This refutes the claim on the code as written
(the spec's design notes themselves flag this staleness risk). -/
theorem ts_epoch_default_is_stale :
    (constructTransaction 500 1000 "u001" 1 "USD").ts_epoch =
      (constructTransaction 500 2000 "u002" 1 "USD").ts_epoch ∧
    (constructTransaction 500 2000 "u002" 1 "USD").ts_epoch ≠ 2000 := by
  constructor
  · rfl
  · decide

/-- C3: for a transaction with non-positive amount, or empty user id, or a
base currency outside {USD, EUR, GBP}, the pipeline run stops inside the
Validation stage with a `ValidationError`: the returned state is exactly
the initial state (no context key and no transaction field beyond the raw
input is mutated, and the store is untouched), only the Validation stage
executed, and the message is chosen by checking user id first, then
amount, then currency. -/
theorem validation_gate (users : UsersIndex) (tx : Transaction)
    (store : List Transaction)
    (hbad : tx.btc_amount ≤ 0 ∨ tx.user_id = "" ∨
      tx.base_currency ∉ supportedCurrencies) :
    pipelineRun users tx store =
      (initState tx store, [StageTag.validation],
        some (Failure.perr (PipelineError.validationError
          (if tx.user_id = "" then "Falta user_id válido."
           else if tx.btc_amount ≤ 0 then
             "btc_amount debe ser numérico y > 0."
           else "base_currency debe ser USD, EUR o GBP.")))) := by
  have hg := getTx_initState tx store
  have hv : validationProcess (initState tx store).ctx =
      .error (Failure.perr (PipelineError.validationError
        (if tx.user_id = "" then "Falta user_id válido."
         else if tx.btc_amount ≤ 0 then
           "btc_amount debe ser numérico y > 0."
         else "base_currency debe ser USD, EUR o GBP."))) := by
    by_cases h1 : tx.user_id = ""
    · simp [validationProcess, hg, h1]
    · by_cases h2 : tx.btc_amount ≤ 0
      · simp [validationProcess, hg, h1, h2]
      · have h3 : tx.base_currency ∉ supportedCurrencies := by tauto
        simp [validationProcess, hg, h1, h2, h3]
  simp [pipelineRun, pipelineFilters, runAux, runStage, hv, Except.map]

/-- C3 witness: a concrete transaction violating only the amount check
(amount 0) stops in Validation with the amount message. -/
theorem validation_gate_witness :
    pipelineRun mockUsers (freshTx "u001" 0 "USD" 7) [] =
      (initState (freshTx "u001" 0 "USD" 7) [], [StageTag.validation],
        some (Failure.perr (PipelineError.validationError
          "btc_amount debe ser numérico y > 0."))) := by
  have h := validation_gate mockUsers (freshTx "u001" 0 "USD" 7) []
    (Or.inl (by norm_num [freshTx]))
  simpa [freshTx] using h

/-- C5: the Persistence stage raises `StorageError` "Transacción
incompleta…" whenever any of `btc_price_in_base`, `subtotal_base`,
`commission_base`, `total_base` is unset — and since it raises, it returns
no successor state, so nothing is appended to the store; the Fee stage
raises `TransformError` "Falta subtotal_base…" whenever `subtotal_base` is
unset — and since it raises before any mutation, `commission_base` and
`total_base` stay unset. -/
theorem storage_and_fee_preconditions :
    (∀ (users : UsersIndex) (s : PState) (tx : Transaction),
      getTx s.ctx = some tx →
      (tx.btc_price_in_base = none ∨ tx.subtotal_base = none ∨
        tx.commission_base = none ∨ tx.total_base = none) →
      runStage users StageTag.storage s =
        .error (Failure.perr (PipelineError.storageError msgIncompleta))) ∧
    (∀ (users : UsersIndex) (s : PState) (tx : Transaction),
      getTx s.ctx = some tx → tx.subtotal_base = none →
      runStage users StageTag.fee s =
        .error (Failure.perr (PipelineError.transformError
          msgFaltaSubtotal))) := by
  constructor
  · intro users s tx hg hnone
    have hcond : tx.subtotal_base = none ∨ tx.total_base = none ∨
        tx.commission_base = none ∨ tx.btc_price_in_base = none := by tauto
    simp only [runStage, storageProcess, hg]
    rw [if_pos hcond]
  · intro users s tx hg hst
    simp [runStage, feeProcess, hg, hst, Except.map]

/-- C5 witness: on a freshly constructed transaction (all computed fields
unset) both preconditions fire. -/
theorem storage_and_fee_preconditions_witness :
    runStage mockUsers StageTag.storage
        (initState (freshTx "u001" 1 "USD" 0) []) =
      .error (Failure.perr (PipelineError.storageError msgIncompleta)) ∧
    runStage mockUsers StageTag.fee
        (initState (freshTx "u001" 1 "USD" 0) []) =
      .error (Failure.perr (PipelineError.transformError
        msgFaltaSubtotal)) :=
  ⟨storage_and_fee_preconditions.1 mockUsers
      (initState (freshTx "u001" 1 "USD" 0) []) (freshTx "u001" 1 "USD" 0)
      (by decide) (Or.inl (by decide)),
   storage_and_fee_preconditions.2 mockUsers
      (initState (freshTx "u001" 1 "USD" 0) []) (freshTx "u001" 1 "USD" 0)
      (by decide) (by decide)⟩

/-- C9: once a transaction has passed Validation its base currency is one
of USD/EUR/GBP, which are exactly the keys of both `FixedRateProvider`
tables; hence the Unsupported-Currency branches of `get_btc_price` and
`usd_to` cannot be taken: neither rate lookup errors, the Conversion stage
cannot raise at all, and the only failure the Fee stage can still raise is
the missing-subtotal ordering error — never an unsupported-currency one. -/
theorem supported_currency_no_unsupported_failure
    (users : UsersIndex) (s : PState) (tx : Transaction)
    (hg : getTx s.ctx = some tx)
    (hcur : tx.base_currency ∈ supportedCurrencies) :
    (∀ e, get_btc_price tx.base_currency ≠ .error e) ∧
    (∀ e, usd_to tx.base_currency ≠ .error e) ∧
    (∀ e, runStage users StageTag.transform s ≠ .error e) ∧
    (∀ e, runStage users StageTag.fee s = .error e →
      e = Failure.perr (PipelineError.transformError msgFaltaSubtotal)) := by
  rcases (by simpa [supportedCurrencies] using hcur :
      tx.base_currency = "USD" ∨ tx.base_currency = "EUR" ∨
        tx.base_currency = "GBP") with hc | hc | hc <;>
    exact ⟨fun e => by simp [get_btc_price, hc],
      fun e => by simp [usd_to, hc],
      fun e => by
        simp [runStage, transformProcess, hg, get_btc_price, hc, Except.map],
      fun e he => by
        cases hst : tx.subtotal_base with
        | none =>
          simp [runStage, feeProcess, hg, hst, Except.map] at he
          exact he.symm
        | some st =>
          simp [runStage, feeProcess, hg, hst, usd_to, hc, Except.map] at he⟩

/-- C9 witness: on a concrete post-validation context with currency USD,
the Conversion stage does not raise the unsupported-currency failure. -/
theorem supported_currency_witness :
    runStage mockUsers StageTag.transform
        (initState (freshTx "u001" 1 "USD" 0) []) ≠
      .error (Failure.perr (PipelineError.transformError
        "Moneda no soportada para precio BTC: USD")) :=
  (supported_currency_no_unsupported_failure mockUsers
      (initState (freshTx "u001" 1 "USD" 0) []) (freshTx "u001" 1 "USD" 0)
      (by decide) (by decide)).2.2.1
    (Failure.perr (PipelineError.transformError
      "Moneda no soportada para precio BTC: USD"))

/-- C10: the Conversion stage is idempotent.  It recomputes
`btc_price_in_base` from the fixed rate table and `subtotal_base` from the
(unchanged) amount, rather than accumulating; so if one application of the
stage turns state `s` into `s'`, a second application maps `s'` to exactly
`s'` again — same context, same `btc_price_in_base`, same
`subtotal_base`. -/
theorem transform_idempotent (users : UsersIndex) (s s' : PState)
    (tx : Transaction) (hg : getTx s.ctx = some tx)
    (hcur : tx.base_currency ∈ supportedCurrencies)
    (hok : runStage users StageTag.transform s = .ok s') :
    runStage users StageTag.transform s' = .ok s' := by
  obtain ⟨c', hc', hs'⟩ := except_map_ok hok
  obtain ⟨tx₁, p, hg₁, hp, hshape⟩ := transform_ok_shape hc'
  have htxeq : tx₁ = tx := by
    rw [hg] at hg₁
    exact (Option.some.inj hg₁).symm
  subst htxeq
  subst hs'
  subst hshape
  simp [runStage, transformProcess, getTx_insert_tx, hp, Except.map,
    ctxInsert_idem]

/-- C10 witness: a concrete run of the Conversion stage on a fresh USD
transaction of amount 1; a second run returns the same state. -/
theorem transform_idempotent_witness :
    runStage mockUsers StageTag.transform
        { ctx := [("transaction", Value.tx
            { user_id := "u001", btc_amount := 1, base_currency := "USD",
              btc_price_in_base := some 65000, subtotal_base := some 65000,
              commission_usd := 5, commission_base := none,
              total_base := none, ts_epoch := 0 })],
          store := [] } =
      .ok { ctx := [("transaction", Value.tx
            { user_id := "u001", btc_amount := 1, base_currency := "USD",
              btc_price_in_base := some 65000, subtotal_base := some 65000,
              commission_usd := 5, commission_base := none,
              total_base := none, ts_epoch := 0 })],
            store := [] } :=
  transform_idempotent mockUsers (initState (freshTx "u001" 1 "USD" 0) [])
    { ctx := [("transaction", Value.tx
        { user_id := "u001", btc_amount := 1, base_currency := "USD",
          btc_price_in_base := some 65000, subtotal_base := some 65000,
          commission_usd := 5, commission_base := none,
          total_base := none, ts_epoch := 0 })],
      store := [] }
    (freshTx "u001" 1 "USD" 0) (by decide) (by decide)
    (by with_unfolding_all rfl)

/-- C2: the first stage to raise short-circuits the run.  In general: if
every stage of a prefix succeeds, taking the initial state to `s₁`, and the
next stage `t` raises `e`, then the whole run returns exactly `e`, the
executed-stage trace is the prefix plus `t` (no later stage executes), and
the state handed back to the caller is `s₁` — the earlier stages' mutations
are kept, not rolled back.  In particular, for the concrete five-stage
pipeline: if Validation fails, the trace is `[validation]`, so Auth,
Conversion, Fee and Storage never execute, and the state is the initial
one. -/
theorem first_failure_short_circuits :
    (∀ (users : UsersIndex) (pre : List StageTag) (t : StageTag)
        (rest : List StageTag) (s s₁ : PState) (e : Failure),
      runAll users pre s = .ok s₁ → runStage users t s₁ = .error e →
      runAux users (pre ++ t :: rest) s = (s₁, pre ++ [t], some e)) ∧
    (∀ (users : UsersIndex) (tx : Transaction) (store : List Transaction)
        (e : Failure),
      runStage users StageTag.validation (initState tx store) = .error e →
      pipelineRun users tx store =
        (initState tx store, [StageTag.validation], some e)) := by
  constructor
  · intro users pre t rest
    induction pre with
    | nil =>
      intro s s₁ e hpre hfail
      have hs : s = s₁ := by simpa [runAll] using hpre
      subst hs
      simp [runAux, hfail]
    | cons p ps ih =>
      intro s s₁ e hpre hfail
      unfold runAll at hpre
      split at hpre
      · exact absurd hpre (by simp)
      · next s₂ hstep =>
        have ihres := ih s₂ s₁ e hpre hfail
        simp [runAux, hstep, ihres]
  · intro users tx store e hfail
    simp [pipelineRun, pipelineFilters, runAux, hfail]

/-- C2 witness: a transaction with amount 0 fails Validation; its
trace contains only the Validation stage, the error propagates, and the
state is unchanged. -/
theorem first_failure_short_circuits_witness :
    pipelineRun mockUsers (freshTx "u001" 0 "USD" 0) [] =
      (initState (freshTx "u001" 0 "USD" 0) [], [StageTag.validation],
        some (Failure.perr (PipelineError.validationError
          "btc_amount debe ser numérico y > 0."))) :=
  first_failure_short_circuits.2 mockUsers (freshTx "u001" 0 "USD" 0) []
    (Failure.perr (PipelineError.validationError
      "btc_amount debe ser numérico y > 0.")) (by decide)

/-- C4: on an otherwise-valid fresh transaction, an unknown user id makes
the run stop in the Auth stage with the "no existe" `AuthError`, and an
inactive user with the "está inactivo" `AuthError`; in both cases the
returned state is exactly the initial one — the fresh transaction fields
`btc_price_in_base`, `subtotal_base` and `total_base` are still `none` and
the store is untouched.  On success, the Auth stage attaches the resolved
user to the context under the fixed key `"user"`. -/
theorem auth_gate :
    (∀ (users : UsersIndex) (uid : String) (amount : ℚ) (cur : String)
        (ts : Int) (store : List Transaction),
      uid ≠ "" → 0 < amount → cur ∈ supportedCurrencies →
      usersLookup users uid = none →
      pipelineRun users (freshTx uid amount cur ts) store =
        (initState (freshTx uid amount cur ts) store,
          [StageTag.validation, StageTag.auth],
          some (Failure.perr (PipelineError.authError (msgNoExiste uid)))) ∧
      (freshTx uid amount cur ts).btc_price_in_base = none ∧
      (freshTx uid amount cur ts).subtotal_base = none ∧
      (freshTx uid amount cur ts).total_base = none) ∧
    (∀ (users : UsersIndex) (uid : String) (amount : ℚ) (cur : String)
        (ts : Int) (store : List Transaction) (u : User),
      uid ≠ "" → 0 < amount → cur ∈ supportedCurrencies →
      usersLookup users uid = some u → u.active = false →
      pipelineRun users (freshTx uid amount cur ts) store =
        (initState (freshTx uid amount cur ts) store,
          [StageTag.validation, StageTag.auth],
          some (Failure.perr (PipelineError.authError (msgInactivo uid)))) ∧
      (freshTx uid amount cur ts).btc_price_in_base = none ∧
      (freshTx uid amount cur ts).subtotal_base = none ∧
      (freshTx uid amount cur ts).total_base = none) ∧
    (∀ (users : UsersIndex) (c : Ctx) (tx : Transaction) (u : User),
      getTx c = some tx → usersLookup users tx.user_id = some u →
      u.active = true →
      authProcess users c = .ok (ctxInsert c "user" (Value.user u)) ∧
      ctxLookup (ctxInsert c "user" (Value.user u)) "user" =
        some (Value.user u)) := by
  refine ⟨?_, ?_, ?_⟩
  · intro users uid amount cur ts store hne hpos hcur hu
    have hval : validationProcess
        (initState (freshTx uid amount cur ts) store).ctx =
        .ok (initState (freshTx uid amount cur ts) store).ctx := by
      simp [validationProcess, initState, getTx, ctxLookup, freshTx, hne,
        not_le.mpr hpos, hcur]
    have hauth : authProcess users
        (initState (freshTx uid amount cur ts) store).ctx =
        .error (.perr (.authError (msgNoExiste uid))) := by
      simp [authProcess, initState, getTx, ctxLookup, freshTx, hu]
    refine ⟨?_, rfl, rfl, rfl⟩
    simp [pipelineRun, pipelineFilters, runAux, runStage, hval, hauth,
      Except.map]
  · intro users uid amount cur ts store u hne hpos hcur hu hact
    have hval : validationProcess
        (initState (freshTx uid amount cur ts) store).ctx =
        .ok (initState (freshTx uid amount cur ts) store).ctx := by
      simp [validationProcess, initState, getTx, ctxLookup, freshTx, hne,
        not_le.mpr hpos, hcur]
    have hauth : authProcess users
        (initState (freshTx uid amount cur ts) store).ctx =
        .error (.perr (.authError (msgInactivo uid))) := by
      simp [authProcess, initState, getTx, ctxLookup, freshTx, hu, hact]
    refine ⟨?_, rfl, rfl, rfl⟩
    simp [pipelineRun, pipelineFilters, runAux, runStage, hval, hauth,
      Except.map]
  · intro users c tx u hg hu hact
    exact ⟨by simp [authProcess, hg, hu, hact],
      ctxLookup_insert_self c "user" (Value.user u)⟩

/-- C4 witness: the unknown user u999 triggers "no existe", the inactive
user u003 triggers "está inactivo", and the active user u001 gets attached
under the `"user"` key. -/
theorem auth_gate_witness :
    (pipelineRun mockUsers (freshTx "u999" 1 "USD" 0) [] =
      (initState (freshTx "u999" 1 "USD" 0) [],
        [StageTag.validation, StageTag.auth],
        some (Failure.perr (PipelineError.authError (msgNoExiste "u999"))))) ∧
    (pipelineRun mockUsers (freshTx "u003" 1 "USD" 0) [] =
      (initState (freshTx "u003" 1 "USD" 0) [],
        [StageTag.validation, StageTag.auth],
        some (Failure.perr (PipelineError.authError (msgInactivo "u003"))))) ∧
    authProcess mockUsers [("transaction", Value.tx (freshTx "u001" 1 "USD" 0))] =
      .ok (ctxInsert [("transaction", Value.tx (freshTx "u001" 1 "USD" 0))]
        "user" (Value.user { user_id := "u001", name := "Alice", active := true })) :=
  ⟨(auth_gate.1 mockUsers "u999" 1 "USD" 0 [] (by decide) (by decide)
      (by decide) (by decide)).1,
   (auth_gate.2.1 mockUsers "u003" 1 "USD" 0 []
      { user_id := "u003", name := "Carol", active := false }
      (by decide) (by decide) (by decide) (by decide) (by decide)).1,
   (auth_gate.2.2 mockUsers [("transaction", Value.tx (freshTx "u001" 1 "USD" 0))]
      (freshTx "u001" 1 "USD" 0)
      { user_id := "u001", name := "Alice", active := true }
      (by decide) (by decide) (by decide)).1⟩

/-- C1: whenever `Pipeline.run` succeeds on a transaction (no stage
raises), the final transaction record has `btc_price_in_base`,
`subtotal_base`, `commission_base` and `total_base` all set, and
`total_base = round2 (subtotal_base + commission_base)` — the Fee stage
computed the total from the final subtotal and commission, and the
Persistence stage checked all four fields and changed none of them. -/
theorem run_success_total_equation (users : UsersIndex) (tx : Transaction)
    (store : List Transaction) (sf : PState) (tr : List StageTag)
    (h : pipelineRun users tx store = (sf, tr, none)) :
    ∃ txf st cb, getTx sf.ctx = some txf ∧
      txf.btc_price_in_base ≠ none ∧
      txf.subtotal_base = some st ∧
      txf.commission_base = some cb ∧
      txf.total_base = some (round2 (st + cb)) := by
  have hall : runAll users pipelineFilters (initState tx store) = .ok sf :=
    runAux_none_runAll pipelineFilters (initState tx store) sf tr h
  obtain ⟨s₁, s₂, s₃, s₄, h₁, h₂, h₃, h₄, h₅⟩ := runAll_pipeline_decompose hall
  have h₄' : (feeProcess s₃.ctx).map
      (fun c => { s₃ with ctx := c }) = .ok s₄ := h₄
  obtain ⟨c₄, hc₄, hs₄⟩ := except_map_ok h₄'
  obtain ⟨tx₃, st, fx, hg₃, hst, hfx, hcc₄⟩ := fee_ok_shape hc₄
  have hg₄ : getTx s₄.ctx = some { tx₃ with
      commission_base := some (round2 (tx₃.commission_usd * fx)),
      total_base :=
        some (round2 (st + round2 (tx₃.commission_usd * fx))) } := by
    rw [hs₄]
    show getTx c₄ = _
    rw [hcc₄]
    exact getTx_insert_tx _ _
  have h₅' : storageProcess s₄ = .ok sf := h₅
  obtain ⟨tx₄, hg₄', hsub, htot, hcom, hpr, hsf⟩ := storage_ok_shape h₅'
  have htx₄ := Option.some.inj (hg₄'.symm.trans hg₄)
  have hgf : getTx sf.ctx = some tx₄ := by
    rw [hsf]
    show getTx (ctxInsert s₄.ctx "storage_result" (Value.str "ok")) = _
    rw [getTx_insert_other s₄.ctx _ (by decide)]
    exact hg₄'
  subst htx₄
  refine ⟨_, st, round2 (tx₃.commission_usd * fx), hgf, hpr, ?_, ?_, ?_⟩
  · simpa using hst
  · simp
  · simp

/-- C1 witness: the successful concrete run of Scenario A, with its final
state spelled out. -/
theorem run_success_total_equation_witness :
    ∃ txf st cb,
      getTx (PState.mk
        [("transaction", Value.tx (Transaction.mk "u001" (1/100) "USD"
            (some 65000) (some 650) 5 (some 5) (some 655) 0)),
         ("user", Value.user (User.mk "u001" "Alice" true)),
         ("storage_result", Value.str "ok")]
        [Transaction.mk "u001" (1/100) "USD"
            (some 65000) (some 650) 5 (some 5) (some 655) 0]).ctx =
        some txf ∧
      txf.btc_price_in_base ≠ none ∧
      txf.subtotal_base = some st ∧
      txf.commission_base = some cb ∧
      txf.total_base = some (round2 (st + cb)) :=
  run_success_total_equation mockUsers (freshTx "u001" (1/100) "USD" 0) []
    _ [StageTag.validation, StageTag.auth, StageTag.transform, StageTag.fee,
       StageTag.storage]
    (by with_unfolding_all rfl)

/-- C8: no stage removes the `"transaction"` key: whenever a stage
succeeds on a context holding the transaction record, the output context
still holds a transaction record under that key (stages only add `"user"`
or `"storage_result"`, or overwrite `"transaction"` with the enriched
record); consequently a successful `Pipeline.run` returns a context whose
`"transaction"` key holds the input transaction — the same record object,
here witnessed by the identity of every caller-supplied field (`user_id`,
`btc_amount`, `base_currency`, `commission_usd`, `ts_epoch`), the stages
having filled in only the computed fields in place. -/
theorem transaction_key_preserved :
    (∀ (users : UsersIndex) (t : StageTag) (s sf : PState)
        (tx : Transaction),
      getTx s.ctx = some tx → runStage users t s = .ok sf →
      ∃ tx', getTx sf.ctx = some tx') ∧
    (∀ (users : UsersIndex) (tx : Transaction) (store : List Transaction)
        (sf : PState) (tr : List StageTag),
      pipelineRun users tx store = (sf, tr, none) →
      ∃ tx', getTx sf.ctx = some tx' ∧ tx'.user_id = tx.user_id ∧
        tx'.btc_amount = tx.btc_amount ∧
        tx'.base_currency = tx.base_currency ∧
        tx'.commission_usd = tx.commission_usd ∧
        tx'.ts_epoch = tx.ts_epoch) := by
  constructor
  · intro users t s sf tx hg hok
    cases t with
    | validation =>
      have hok' : (validationProcess s.ctx).map
          (fun c => { s with ctx := c }) = .ok sf := hok
      obtain ⟨c', hc', hsf⟩ := except_map_ok hok'
      have hcc := validation_ok_shape hc'
      refine ⟨tx, ?_⟩
      rw [hsf]
      show getTx c' = some tx
      rw [hcc]
      exact hg
    | auth =>
      have hok' : (authProcess users s.ctx).map
          (fun c => { s with ctx := c }) = .ok sf := hok
      obtain ⟨c', hc', hsf⟩ := except_map_ok hok'
      obtain ⟨txa, u, _, _, _, hcc⟩ := auth_ok_shape hc'
      refine ⟨tx, ?_⟩
      rw [hsf]
      show getTx c' = some tx
      rw [hcc, getTx_insert_other s.ctx _ (by decide)]
      exact hg
    | transform =>
      have hok' : (transformProcess s.ctx).map
          (fun c => { s with ctx := c }) = .ok sf := hok
      obtain ⟨c', hc', hsf⟩ := except_map_ok hok'
      obtain ⟨txt, p, _, _, hcc⟩ := transform_ok_shape hc'
      refine ⟨{ txt with
          btc_price_in_base := some p,
          subtotal_base := some (round2 (p * txt.btc_amount)) }, ?_⟩
      rw [hsf]
      show getTx c' = _
      rw [hcc]
      exact getTx_insert_tx _ _
    | fee =>
      have hok' : (feeProcess s.ctx).map
          (fun c => { s with ctx := c }) = .ok sf := hok
      obtain ⟨c', hc', hsf⟩ := except_map_ok hok'
      obtain ⟨txf, st, fx, _, _, _, hcc⟩ := fee_ok_shape hc'
      refine ⟨{ txf with
          commission_base := some (round2 (txf.commission_usd * fx)),
          total_base :=
            some (round2 (st + round2 (txf.commission_usd * fx))) }, ?_⟩
      rw [hsf]
      show getTx c' = _
      rw [hcc]
      exact getTx_insert_tx _ _
    | storage =>
      have hok' : storageProcess s = .ok sf := hok
      obtain ⟨txs, hgs, _, _, _, _, hsf⟩ := storage_ok_shape hok'
      refine ⟨txs, ?_⟩
      rw [hsf]
      show getTx (ctxInsert s.ctx "storage_result" (Value.str "ok")) = _
      rw [getTx_insert_other s.ctx _ (by decide)]
      exact hgs
  · intro users tx store sf tr h
    have hall : runAll users pipelineFilters (initState tx store) = .ok sf :=
      runAux_none_runAll pipelineFilters (initState tx store) sf tr h
    obtain ⟨s₁, s₂, s₃, s₄, h₁, h₂, h₃, h₄, h₅⟩ :=
      runAll_pipeline_decompose hall
    have h₁' : (validationProcess (initState tx store).ctx).map
        (fun c => { initState tx store with ctx := c }) = .ok s₁ := h₁
    obtain ⟨c₁, hc₁, hs₁⟩ := except_map_ok h₁'
    have hcc₁ := validation_ok_shape hc₁
    have hg₁ : getTx s₁.ctx = some tx := by
      rw [hs₁]
      show getTx c₁ = some tx
      rw [hcc₁]
      exact getTx_initState tx store
    have h₂' : (authProcess users s₁.ctx).map
        (fun c => { s₁ with ctx := c }) = .ok s₂ := h₂
    obtain ⟨c₂, hc₂, hs₂⟩ := except_map_ok h₂'
    obtain ⟨txa, u, _, _, _, hcc₂⟩ := auth_ok_shape hc₂
    have hg₂ : getTx s₂.ctx = some tx := by
      rw [hs₂]
      show getTx c₂ = some tx
      rw [hcc₂, getTx_insert_other s₁.ctx _ (by decide)]
      exact hg₁
    have h₃' : (transformProcess s₂.ctx).map
        (fun c => { s₂ with ctx := c }) = .ok s₃ := h₃
    obtain ⟨c₃, hc₃, hs₃⟩ := except_map_ok h₃'
    obtain ⟨txt, p, hgt, hp, hcc₃⟩ := transform_ok_shape hc₃
    have htxt : txt = tx := Option.some.inj (hgt.symm.trans hg₂)
    have hg₃ : getTx s₃.ctx = some { txt with
        btc_price_in_base := some p,
        subtotal_base := some (round2 (p * txt.btc_amount)) } := by
      rw [hs₃]
      show getTx c₃ = _
      rw [hcc₃]
      exact getTx_insert_tx _ _
    have h₄' : (feeProcess s₃.ctx).map
        (fun c => { s₃ with ctx := c }) = .ok s₄ := h₄
    obtain ⟨c₄, hc₄, hs₄⟩ := except_map_ok h₄'
    obtain ⟨txf, st, fx, hgf, hst, hfx, hcc₄⟩ := fee_ok_shape hc₄
    have htxf : txf = { txt with
        btc_price_in_base := some p,
        subtotal_base := some (round2 (p * txt.btc_amount)) } :=
      Option.some.inj (hgf.symm.trans hg₃)
    have hg₄ : getTx s₄.ctx = some { txf with
        commission_base := some (round2 (txf.commission_usd * fx)),
        total_base :=
          some (round2 (st + round2 (txf.commission_usd * fx))) } := by
      rw [hs₄]
      show getTx c₄ = _
      rw [hcc₄]
      exact getTx_insert_tx _ _
    have h₅' : storageProcess s₄ = .ok sf := h₅
    obtain ⟨tx₅, hg₅, _, _, _, _, hsf⟩ := storage_ok_shape h₅'
    have htx₅ : tx₅ = { txf with
        commission_base := some (round2 (txf.commission_usd * fx)),
        total_base :=
          some (round2 (st + round2 (txf.commission_usd * fx))) } :=
      Option.some.inj (hg₅.symm.trans hg₄)
    have hgfin : getTx sf.ctx = some tx₅ := by
      rw [hsf]
      show getTx (ctxInsert s₄.ctx "storage_result" (Value.str "ok")) = _
      rw [getTx_insert_other s₄.ctx _ (by decide)]
      exact hg₅
    subst htxt
    subst htxf
    subst htx₅
    exact ⟨_, hgfin, by simp, by simp, by simp, by simp, by simp⟩

/-- C8 witness: on the concrete post-validation state of Scenario A, the
Auth stage keeps the `"transaction"` key. -/
theorem transaction_key_preserved_witness :
    ∃ tx', getTx (PState.mk
        [("transaction", Value.tx (freshTx "u001" 1 "USD" 0)),
         ("user", Value.user (User.mk "u001" "Alice" true))] []).ctx =
      some tx' :=
  transaction_key_preserved.1 mockUsers StageTag.auth
    (initState (freshTx "u001" 1 "USD" 0) [])
    (PState.mk
      [("transaction", Value.tx (freshTx "u001" 1 "USD" 0)),
       ("user", Value.user (User.mk "u001" "Alice" true))] [])
    (freshTx "u001" 1 "USD" 0) (by decide) (by decide)

/-- C6: with the configured rates (BTC: USD 65000, EUR 61000; FX:
USD→USD 1, USD→EUR 0.93) and the default 5.00 USD commission, the full
pipeline run of 0.01 BTC from u001 in USD succeeds with
`subtotal_base = 650.00`, `commission_base = 5.00`, `total_base = 655.00`
and `storage_result = "ok"`, and the run of 0.05 BTC from u002 in EUR
succeeds with `subtotal_base = 3050.00`, `commission_base = 4.65` and
`total_base = 3054.65` (4.65 = 93/20, 3054.65 = 61093/20). -/
theorem fixed_rate_scenarios :
    pipelineRun mockUsers (freshTx "u001" (1/100) "USD" 0) [] =
      (PState.mk
        [("transaction", Value.tx (Transaction.mk "u001" (1/100) "USD"
            (some 65000) (some 650) 5 (some 5) (some 655) 0)),
         ("user", Value.user (User.mk "u001" "Alice" true)),
         ("storage_result", Value.str "ok")]
        [Transaction.mk "u001" (1/100) "USD"
            (some 65000) (some 650) 5 (some 5) (some 655) 0],
       [StageTag.validation, StageTag.auth, StageTag.transform,
        StageTag.fee, StageTag.storage], none) ∧
    pipelineRun mockUsers (freshTx "u002" (1/20) "EUR" 0) [] =
      (PState.mk
        [("transaction", Value.tx (Transaction.mk "u002" (1/20) "EUR"
            (some 61000) (some 3050) 5 (some (93/20)) (some (61093/20)) 0)),
         ("user", Value.user (User.mk "u002" "Bob" true)),
         ("storage_result", Value.str "ok")]
        [Transaction.mk "u002" (1/20) "EUR"
            (some 61000) (some 3050) 5 (some (93/20)) (some (61093/20)) 0],
       [StageTag.validation, StageTag.auth, StageTag.transform,
        StageTag.fee, StageTag.storage], none) :=
  ⟨by with_unfolding_all rfl, by with_unfolding_all rfl⟩
